import Mathlib

/-!
Shallow embedding of the inventory allocation core of the
Electronics-Inventory-management Flask application.

The embedded code lives in `src/app/blueprints/admin/routes.py` (handlers
`approve_request`, `reject_request`, `manual_assignment`, `complete_return`)
and `src/app/blueprints/staff/routes.py` (handlers `submit_request`,
`request_return`).  The relational store is modelled as lists of records;
`Model.query.get(id)` / `filter_by(...).first()` become `List.find?` on the
primary key, and an ORM attribute mutation on the loaded row becomes an
update of the first matching record (`updateFirstBy`), which agrees with the
ORM identity map (one in-memory object per primary key).  Flash messages and
`get_or_404` aborts become an explicit `Outcome`.  Form/CSRF validation and
rendering are presentation layer and are outside the embedded handler body.
-/

namespace ElectronicsInventory

/-- Status values stored in `ItemRequest.status` ("pending", "approved",
"rejected"). -/
inductive RequestStatus where
  | pending
  | approved
  | rejected
deriving DecidableEq, Repr

/-- Status values stored in `ItemAssignment.status` ("assigned",
"return_requested", "returned"). -/
inductive AssignmentStatus where
  | assigned
  | return_requested
  | returned
deriving DecidableEq, Repr

/-- The `InventoryItem` model: the fields the allocation core touches.
`quantity_available` is an integer column, embedded as `Int` so that
non-negativity is a theorem, not a typing assumption. -/
structure InventoryItem where
  id : Nat
  name : String
  category : String
  quantity_available : Int
deriving DecidableEq, Repr

/-- The `ItemRequest` model.  Modelled from the spec: `models.py` is absent
from `src/`, and the spec states a freshly submitted request has status
`pending` (the handler creates the row without an explicit status, relying on
the model's column default). -/
structure ItemRequest where
  id : Nat
  staff_id : Nat
  item_name : String
  justification : String
  status : RequestStatus
deriving DecidableEq, Repr

/-- The `ItemAssignment` model: the fields the allocation core touches.
Timestamps are abstract `Nat` ticks. -/
structure ItemAssignment where
  id : Nat
  item_id : Nat
  staff_id : Nat
  allocation_date : Nat
  return_date : Option Nat
  status : AssignmentStatus
deriving DecidableEq, Repr

/-- The persistent store visible to the six core operations.  Staff users are
only ever referenced by id, so they are kept as a list of ids; the
`next_*_id` counters model the autoincrementing primary keys. -/
structure DB where
  items : List InventoryItem
  requests : List ItemRequest
  assignments : List ItemAssignment
  staff_ids : List Nat
  next_request_id : Nat
  next_assignment_id : Nat
deriving DecidableEq, Repr

/-- Outcome of one handler invocation, abstracting the flash message /
HTTP-abort the handler produces. -/
inductive Outcome where
  | success
  | notFound
  | alreadyProcessed
  | itemUnavailable
  | invalidState
  | alreadyRequested
deriving DecidableEq, Repr

/-- Update the first record matching `p` (the row the ORM loaded and
mutated); all other records are untouched. -/
def updateFirstBy {α : Type} (p : α → Bool) (f : α → α) : List α → List α
  | [] => []
  | x :: xs => if p x then f x :: xs else x :: updateFirstBy p f xs

/-- `InventoryItem.query.get(iid)`. -/
def findItem (db : DB) (iid : Nat) : Option InventoryItem :=
  db.items.find? (fun it => it.id == iid)

/-- `ItemRequest.query.get(rid)`. -/
def findRequest (db : DB) (rid : Nat) : Option ItemRequest :=
  db.requests.find? (fun r => r.id == rid)

/-- `ItemAssignment.query.get(aid)`. -/
def findAssignment (db : DB) (aid : Nat) : Option ItemAssignment :=
  db.assignments.find? (fun a => a.id == aid)

/-- Embeds `submit_request` (`src/app/blueprints/staff/routes.py` lines
49-74): create an `ItemRequest` for the acting staff user; no inventory side
effect.  The `pending` status is the model default (see `ItemRequest`). -/
def submit_request (db : DB) (sid : Nat) (iname justif : String) :
    DB × Outcome :=
  ({ db with
      requests := db.requests ++
        [{ id := db.next_request_id, staff_id := sid, item_name := iname,
           justification := justif, status := RequestStatus.pending }],
      next_request_id := db.next_request_id + 1 },
   Outcome.success)

/-- Embeds `approve_request` (`src/app/blueprints/admin/routes.py` lines
162-201), after form validation: load the request (`get_or_404`), bail out if
it is no longer `pending`; load the item (`get_or_404`), bail out if
`quantity_available <= 0`; otherwise create an `assigned` `ItemAssignment`
for the request's staff member, decrement the item's quantity and mark the
request `approved`, in one commit. -/
def approve_request (db : DB) (rid iid now : Nat) : DB × Outcome :=
  match findRequest db rid with
  | none => (db, Outcome.notFound)
  | some req =>
    if req.status ≠ RequestStatus.pending then (db, Outcome.alreadyProcessed)
    else
      match findItem db iid with
      | none => (db, Outcome.notFound)
      | some item =>
        if item.quantity_available ≤ 0 then (db, Outcome.itemUnavailable)
        else
          ({ db with
              items := updateFirstBy (fun it => it.id == iid)
                (fun it => { it with
                  quantity_available := it.quantity_available - 1 }) db.items,
              requests := updateFirstBy (fun r => r.id == rid)
                (fun r => { r with status := RequestStatus.approved })
                db.requests,
              assignments := db.assignments ++
                [{ id := db.next_assignment_id, item_id := iid,
                   staff_id := req.staff_id, allocation_date := now,
                   return_date := none,
                   status := AssignmentStatus.assigned }],
              next_assignment_id := db.next_assignment_id + 1 },
           Outcome.success)

/-- Embeds `reject_request` (`src/app/blueprints/admin/routes.py` lines
204-228), after form validation: load the request (`get_or_404`), bail out if
it is no longer `pending`, otherwise mark it `rejected`.  No inventory side
effect. -/
def reject_request (db : DB) (rid : Nat) : DB × Outcome :=
  match findRequest db rid with
  | none => (db, Outcome.notFound)
  | some req =>
    if req.status ≠ RequestStatus.pending then (db, Outcome.alreadyProcessed)
    else
      ({ db with
          requests := updateFirstBy (fun r => r.id == rid)
            (fun r => { r with status := RequestStatus.rejected })
            db.requests },
       Outcome.success)

/-- Embeds `manual_assignment` (`src/app/blueprints/admin/routes.py` lines
231-265), after form validation: load the item and the staff user
(`get_or_404` each), bail out if `quantity_available <= 0`, otherwise create
an `assigned` `ItemAssignment` and decrement the item's quantity. -/
def manual_assignment (db : DB) (iid sid now : Nat) : DB × Outcome :=
  match findItem db iid with
  | none => (db, Outcome.notFound)
  | some item =>
    if sid ∈ db.staff_ids then
      if item.quantity_available ≤ 0 then (db, Outcome.itemUnavailable)
      else
        ({ db with
            items := updateFirstBy (fun it => it.id == iid)
              (fun it => { it with
                quantity_available := it.quantity_available - 1 }) db.items,
            assignments := db.assignments ++
              [{ id := db.next_assignment_id, item_id := iid,
                 staff_id := sid, allocation_date := now,
                 return_date := none, status := AssignmentStatus.assigned }],
            next_assignment_id := db.next_assignment_id + 1 },
         Outcome.success)
    else (db, Outcome.notFound)

/-- Embeds `request_return` (`src/app/blueprints/staff/routes.py` lines
114-136): load the assignment filtered by id and the acting staff member
(`first_or_404`); statuses outside assigned/return_requested cannot be
returned; `return_requested` is an idempotent no-op; `assigned` transitions
to `return_requested`. -/
def request_return (db : DB) (aid sid : Nat) : DB × Outcome :=
  match db.assignments.find? (fun a => a.id == aid && a.staff_id == sid) with
  | none => (db, Outcome.notFound)
  | some a =>
    if a.status ≠ AssignmentStatus.assigned ∧
        a.status ≠ AssignmentStatus.return_requested then
      (db, Outcome.invalidState)
    else if a.status = AssignmentStatus.return_requested then
      (db, Outcome.alreadyRequested)
    else
      ({ db with
          assignments := updateFirstBy
            (fun a2 => a2.id == aid && a2.staff_id == sid)
            (fun a2 => { a2 with status := AssignmentStatus.return_requested })
            db.assignments },
       Outcome.success)

/-- Embeds `complete_return` (`src/app/blueprints/admin/routes.py` lines
268-296), after form validation: load the assignment (`get_or_404`), bail out
unless its status is `return_requested`; otherwise mark it `returned`, stamp
`return_date`, and increment the referenced item's quantity — skipping the
increment when the item row no longer exists (`if assignment.item:`). -/
def complete_return (db : DB) (aid now : Nat) : DB × Outcome :=
  match findAssignment db aid with
  | none => (db, Outcome.notFound)
  | some a =>
    if a.status ≠ AssignmentStatus.return_requested then
      (db, Outcome.invalidState)
    else
      let db' : DB :=
        { db with
            assignments := updateFirstBy (fun a2 => a2.id == aid)
              (fun a2 => { a2 with status := AssignmentStatus.returned,
                                   return_date := some now })
              db.assignments }
      match findItem db a.item_id with
      | none => (db', Outcome.success)
      | some _ =>
        ({ db' with
            items := updateFirstBy (fun it => it.id == a.item_id)
              (fun it => { it with
                quantity_available := it.quantity_available + 1 })
              db'.items },
         Outcome.success)

/-- One invocation of one of the six core operations, with the actor-supplied
arguments. -/
inductive Op where
  | submitRequest (sid : Nat) (iname justif : String)
  | approveRequest (rid iid now : Nat)
  | rejectRequest (rid : Nat)
  | manualAssign (iid sid now : Nat)
  | requestReturn (aid sid : Nat)
  | completeReturn (aid now : Nat)
deriving DecidableEq, Repr

/-- The state reached after one operation (the handler always commits or
leaves the store untouched). -/
def applyOp (db : DB) : Op → DB
  | Op.submitRequest sid iname justif => (submit_request db sid iname justif).1
  | Op.approveRequest rid iid now => (approve_request db rid iid now).1
  | Op.rejectRequest rid => (reject_request db rid).1
  | Op.manualAssign iid sid now => (manual_assignment db iid sid now).1
  | Op.requestReturn aid sid => (request_return db aid sid).1
  | Op.completeReturn aid now => (complete_return db aid now).1

/-- The state reached after a sequence of core operations. -/
def runOps (db : DB) (ops : List Op) : DB := ops.foldl applyOp db

section UpdateFirstLemmas

variable {α : Type} {p q : α → Bool} {f : α → α}

theorem length_updateFirstBy (l : List α) :
    (updateFirstBy p f l).length = l.length := by
  induction l with
  | nil => rfl
  | cons x xs ih =>
    simp only [updateFirstBy]
    split <;> simp [ih]

theorem mem_updateFirstBy {x : α} {l : List α}
    (hx : x ∈ updateFirstBy p f l) :
    x ∈ l ∨ ∃ y, l.find? p = some y ∧ x = f y := by
  induction l with
  | nil => simp [updateFirstBy] at hx
  | cons z zs ih =>
    simp only [updateFirstBy] at hx
    by_cases hz : p z
    · simp only [if_pos hz] at hx
      rcases List.mem_cons.mp hx with h | h
      · exact Or.inr ⟨z, List.find?_cons_of_pos zs hz, h⟩
      · exact Or.inl (List.mem_cons_of_mem z h)
    · simp only [if_neg hz] at hx
      rcases List.mem_cons.mp hx with h | h
      · exact Or.inl (h ▸ List.mem_cons_self z zs)
      · rcases ih h with h' | ⟨y, hy, hxy⟩
        · exact Or.inl (List.mem_cons_of_mem z h')
        · exact Or.inr ⟨y, by rw [List.find?_cons_of_neg zs hz]; exact hy, hxy⟩

theorem find?_updateFirstBy_self {l : List α} {y : α}
    (hf : l.find? p = some y) (hpf : p (f y) = true) :
    (updateFirstBy p f l).find? p = some (f y) := by
  induction l with
  | nil => simp at hf
  | cons z zs ih =>
    by_cases hz : p z
    · rw [List.find?_cons_of_pos zs hz] at hf
      injection hf with hf
      subst hf
      simp only [updateFirstBy, if_pos hz]
      exact List.find?_cons_of_pos zs hpf
    · rw [List.find?_cons_of_neg zs hz] at hf
      simp only [updateFirstBy, if_neg hz]
      rw [List.find?_cons_of_neg _ hz]
      exact ih hf

theorem find?_updateFirstBy_congr {l : List α}
    (hq : ∀ x, q (f x) = q x) (hpq : ∀ x, p x = true → q x = false) :
    (updateFirstBy p f l).find? q = l.find? q := by
  induction l with
  | nil => rfl
  | cons z zs ih =>
    by_cases hz : p z
    · simp only [updateFirstBy, if_pos hz]
      have hqz : q z = false := hpq z hz
      have hqfz : q (f z) = false := (hq z).trans hqz
      rw [List.find?_cons_of_neg _ (by simp [hqfz]),
        List.find?_cons_of_neg _ (by simp [hqz])]
    · simp only [updateFirstBy, if_neg hz]
      by_cases hqz : q z
      · rw [List.find?_cons_of_pos _ hqz, List.find?_cons_of_pos _ hqz]
      · rw [List.find?_cons_of_neg _ hqz, List.find?_cons_of_neg _ hqz]
        exact ih

theorem find?_updateFirstBy_isSome {l : List α}
    (hq : ∀ x, q (f x) = q x) :
    ((updateFirstBy p f l).find? q).isSome = (l.find? q).isSome := by
  induction l with
  | nil => rfl
  | cons z zs ih =>
    simp only [updateFirstBy]
    split
    · by_cases hqz : q z
      · rw [List.find?_cons_of_pos _ ((hq z).trans hqz),
          List.find?_cons_of_pos _ hqz]
        rfl
      · rw [List.find?_cons_of_neg _ (by rw [hq z]; exact hqz),
          List.find?_cons_of_neg _ hqz]
    · by_cases hqz : q z
      · rw [List.find?_cons_of_pos _ hqz, List.find?_cons_of_pos _ hqz]
      · rw [List.find?_cons_of_neg _ hqz, List.find?_cons_of_neg _ hqz]
        exact ih

theorem countP_updateFirstBy {l : List α} {y : α}
    (hf : l.find? p = some y) (c : α → Bool) :
    (updateFirstBy p f l).countP c + (if c y then 1 else 0) =
      l.countP c + (if c (f y) then 1 else 0) := by
  induction l with
  | nil => simp at hf
  | cons z zs ih =>
    by_cases hz : p z
    · rw [List.find?_cons_of_pos zs hz] at hf
      injection hf with hf
      subst hf
      simp only [updateFirstBy, if_pos hz, List.countP_cons]
      omega
    · rw [List.find?_cons_of_neg zs hz] at hf
      simp only [updateFirstBy, if_neg hz, List.countP_cons]
      have := ih hf
      omega

theorem updateFirstBy_of_find?_none {l : List α} (h : l.find? p = none) :
    updateFirstBy p f l = l := by
  induction l with
  | nil => rfl
  | cons z zs ih =>
    by_cases hz : p z
    · rw [List.find?_cons_of_pos zs hz] at h
      exact absurd h (by simp)
    · rw [List.find?_cons_of_neg zs hz] at h
      simp only [updateFirstBy, if_neg hz, ih h]

theorem find?_append_none {l₁ l₂ : List α} (h : l₁.find? p = none) :
    (l₁ ++ l₂).find? p = l₂.find? p := by
  induction l₁ with
  | nil => rfl
  | cons z zs ih =>
    by_cases hz : p z
    · rw [List.find?_cons_of_pos zs hz] at h
      exact absurd h (by simp)
    · rw [List.find?_cons_of_neg zs hz] at h
      rw [List.cons_append, List.find?_cons_of_neg _ hz]
      exact ih h

theorem updateFirstBy_append_none {l₁ l₂ : List α}
    (h : l₁.find? p = none) :
    updateFirstBy p f (l₁ ++ l₂) = l₁ ++ updateFirstBy p f l₂ := by
  induction l₁ with
  | nil => rfl
  | cons z zs ih =>
    by_cases hz : p z
    · rw [List.find?_cons_of_pos zs hz] at h
      exact absurd h (by simp)
    · rw [List.find?_cons_of_neg zs hz] at h
      simp only [List.cons_append, updateFirstBy, if_neg hz, List.append_eq,
        ih h]

theorem get?_updateFirstBy (l : List α) (i : Nat) :
    (updateFirstBy p f l).get? i = l.get? i ∨
      ∃ y, l.find? p = some y ∧ l.get? i = some y ∧
        (updateFirstBy p f l).get? i = some (f y) := by
  induction l generalizing i with
  | nil => exact Or.inl rfl
  | cons z zs ih =>
    by_cases hz : p z
    · simp only [updateFirstBy, if_pos hz]
      cases i with
      | zero => exact Or.inr ⟨z, List.find?_cons_of_pos zs hz, rfl, rfl⟩
      | succ j => exact Or.inl rfl
    · simp only [updateFirstBy, if_neg hz]
      cases i with
      | zero => exact Or.inl rfl
      | succ j =>
        rcases ih j with h1 | ⟨y, hy, h1, h2⟩
        · exact Or.inl (by simpa using h1)
        · exact Or.inr ⟨y, by rw [List.find?_cons_of_neg zs hz]; exact hy,
            by simpa using h1, by simpa using h2⟩

end UpdateFirstLemmas

/-- The quantity the store holds for item id `iid` (0 when no such row). -/
def itemQty (db : DB) (iid : Nat) : Int :=
  ((findItem db iid).map (fun it => it.quantity_available)).getD 0

/-- An assignment consuming one unit of item `iid`: it references `iid` and
its status is `assigned` or `return_requested`. -/
def activeAssignment (iid : Nat) (a : ItemAssignment) : Bool :=
  a.item_id == iid && (a.status == AssignmentStatus.assigned ||
    a.status == AssignmentStatus.return_requested)

/-- Number of assignments currently consuming one unit of item `iid`. -/
def activeCount (db : DB) (iid : Nat) : Nat :=
  db.assignments.countP (activeAssignment iid)

/-- Every inventory row has a non-negative quantity. -/
def Nonneg (db : DB) : Prop :=
  ∀ it ∈ db.items, 0 ≤ it.quantity_available

theorem nonneg_submit_request (db : DB) (sid : Nat) (iname justif : String)
    (h : Nonneg db) : Nonneg (submit_request db sid iname justif).1 := h

theorem nonneg_reject_request (db : DB) (rid : Nat) (h : Nonneg db) :
    Nonneg (reject_request db rid).1 := by
  unfold reject_request
  split
  · exact h
  · split
    · exact h
    · exact h

theorem nonneg_request_return (db : DB) (aid sid : Nat) (h : Nonneg db) :
    Nonneg (request_return db aid sid).1 := by
  unfold request_return
  split
  · exact h
  · split
    · exact h
    · split
      · exact h
      · exact h

theorem nonneg_approve_request (db : DB) (rid iid now : Nat) (h : Nonneg db) :
    Nonneg (approve_request db rid iid now).1 := by
  unfold approve_request
  split
  · exact h
  · split
    · exact h
    · split
      · exact h
      · split
        · exact h
        · rename_i req _ item hitem hqty
          intro it hit
          rcases mem_updateFirstBy hit with hmem | ⟨y, hy, rfl⟩
          · exact h it hmem
          · have : y = item := by
              rw [findItem] at hitem
              rw [hitem] at hy
              exact (Option.some.injEq _ _ ▸ hy).symm
            subst this
            simp only
            omega

theorem nonneg_manual_assignment (db : DB) (iid sid now : Nat)
    (h : Nonneg db) : Nonneg (manual_assignment db iid sid now).1 := by
  unfold manual_assignment
  split
  · exact h
  · split
    · split
      · exact h
      · rename_i item hitem _ hqty
        intro it hit
        rcases mem_updateFirstBy hit with hmem | ⟨y, hy, rfl⟩
        · exact h it hmem
        · have : y = item := by
            rw [findItem] at hitem
            rw [hitem] at hy
            exact (Option.some.injEq _ _ ▸ hy).symm
          subst this
          simp only
          omega
    · exact h

theorem nonneg_complete_return (db : DB) (aid now : Nat) (h : Nonneg db) :
    Nonneg (complete_return db aid now).1 := by
  unfold complete_return
  split
  · exact h
  · split
    · exact h
    · split
      · exact h
      · rename_i a hfind hst _ it hit
        intro x hx
        rcases mem_updateFirstBy hx with hmem | ⟨y, hy, rfl⟩
        · exact h x hmem
        · have hy' : 0 ≤ y.quantity_available :=
            h y (List.mem_of_find?_eq_some hy)
          simp only
          omega

theorem nonneg_applyOp (db : DB) (op : Op) (h : Nonneg db) :
    Nonneg (applyOp db op) := by
  cases op with
  | submitRequest sid iname justif => exact nonneg_submit_request db sid iname justif h
  | approveRequest rid iid now => exact nonneg_approve_request db rid iid now h
  | rejectRequest rid => exact nonneg_reject_request db rid h
  | manualAssign iid sid now => exact nonneg_manual_assignment db iid sid now h
  | requestReturn aid sid => exact nonneg_request_return db aid sid h
  | completeReturn aid now => exact nonneg_complete_return db aid now h

instance (db : DB) : Decidable (Nonneg db) :=
  List.decidableBAll _ db.items

theorem findItem_updateFirstBy_self {l : List InventoryItem} {iid : Nat}
    {item : InventoryItem} {f : InventoryItem → InventoryItem}
    (hf : ∀ it, (f it).id = it.id)
    (h : l.find? (fun it => it.id == iid) = some item) :
    (updateFirstBy (fun it => it.id == iid) f l).find?
      (fun it => it.id == iid) = some (f item) := by
  apply find?_updateFirstBy_self h
  rw [hf item]
  have hp := List.find?_some h
  exact hp

theorem findItem_updateFirstBy_other {l : List InventoryItem}
    {iid iid2 : Nat} {f : InventoryItem → InventoryItem}
    (hf : ∀ it, (f it).id = it.id) (hne : iid2 ≠ iid) :
    (updateFirstBy (fun it => it.id == iid) f l).find?
        (fun it => it.id == iid2) =
      l.find? (fun it => it.id == iid2) := by
  apply find?_updateFirstBy_congr (fun x => by rw [hf])
  intro x hx
  have hx' : x.id = iid := by simpa using hx
  have : x.id ≠ iid2 := by omega
  simpa using this

/-- C1: starting from any state with every `quantity_available >= 0`, any
sequence of the six core operations keeps every `quantity_available >= 0`.
Approval and manual assignment only decrement after the
`quantity_available <= 0` guard passes, and return completion only
increments. -/
theorem quantity_available_nonneg_reachable (db : DB) (ops : List Op)
    (h : Nonneg db) : Nonneg (runOps db ops) := by
  induction ops generalizing db with
  | nil => exact h
  | cons op rest ih => exact ih (applyOp db op) (nonneg_applyOp db op h)

/-- Initial store for the C1 witness: one item with two units, one pending
request, one registered staff user. -/
def c1DB : DB where
  items := [{ id := 1, name := "Laptop", category := "Computing",
              quantity_available := 2 }]
  requests := [{ id := 1, staff_id := 7, item_name := "Laptop",
                 justification := "site visits", status := RequestStatus.pending }]
  assignments := []
  staff_ids := [7]
  next_request_id := 2
  next_assignment_id := 1

/-- Operation sequence for the C1 witness, exercising all six operations
(including a repeated approval and a rejection of the freshly submitted
request). -/
def c1Ops : List Op :=
  [Op.submitRequest 7 "Mouse" "spare",
   Op.approveRequest 1 1 0,
   Op.manualAssign 1 7 1,
   Op.approveRequest 1 1 2,
   Op.requestReturn 1 7,
   Op.completeReturn 1 3,
   Op.rejectRequest 2]

theorem quantity_available_nonneg_reachable_witness :
    Nonneg c1DB ∧ Nonneg (runOps c1DB c1Ops) :=
  ⟨by decide, quantity_available_nonneg_reachable c1DB c1Ops (by decide)⟩

theorem consv_submit_request (db : DB) (sid : Nat) (iname justif : String)
    (iid : Nat) :
    itemQty (submit_request db sid iname justif).1 iid +
        (activeCount (submit_request db sid iname justif).1 iid : Int) =
      itemQty db iid + (activeCount db iid : Int) ∧
    (findItem (submit_request db sid iname justif).1 iid).isSome =
      (findItem db iid).isSome :=
  ⟨rfl, rfl⟩

theorem consv_reject_request (db : DB) (rid iid : Nat) :
    itemQty (reject_request db rid).1 iid +
        (activeCount (reject_request db rid).1 iid : Int) =
      itemQty db iid + (activeCount db iid : Int) ∧
    (findItem (reject_request db rid).1 iid).isSome =
      (findItem db iid).isSome := by
  unfold reject_request
  split
  · exact ⟨rfl, rfl⟩
  · split
    · exact ⟨rfl, rfl⟩
    · exact ⟨rfl, rfl⟩

theorem consv_approve_request (db : DB) (rid iid2 now iid : Nat) :
    itemQty (approve_request db rid iid2 now).1 iid +
        (activeCount (approve_request db rid iid2 now).1 iid : Int) =
      itemQty db iid + (activeCount db iid : Int) ∧
    (findItem (approve_request db rid iid2 now).1 iid).isSome =
      (findItem db iid).isSome := by
  unfold approve_request
  split
  · exact ⟨rfl, rfl⟩
  · split
    · exact ⟨rfl, rfl⟩
    · split
      · exact ⟨rfl, rfl⟩
      · split
        · exact ⟨rfl, rfl⟩
        · rename_i oreq reqv hreqeq hnp oitem item hitem hqty
          unfold findItem at hitem
          constructor
          · simp only [itemQty, findItem, activeCount, List.countP_append]
            by_cases hii : iid = iid2
            · subst hii
              rw [findItem_updateFirstBy_self
                (f := fun it => { it with
                  quantity_available := it.quantity_available - 1 })
                (fun it => rfl) hitem, hitem]
              have hone : List.countP (activeAssignment iid)
                  [{ id := db.next_assignment_id, item_id := iid,
                     staff_id := reqv.staff_id, allocation_date := now,
                     return_date := none,
                     status := AssignmentStatus.assigned }] = 1 := by
                simp [List.countP_cons, activeAssignment]
              rw [hone]
              simp only [Option.map_some', Option.getD_some]
              push_cast
              ring
            · rw [findItem_updateFirstBy_other
                (f := fun it => { it with
                  quantity_available := it.quantity_available - 1 })
                (fun it => rfl) hii]
              have hzero : List.countP (activeAssignment iid)
                  [{ id := db.next_assignment_id, item_id := iid2,
                     staff_id := reqv.staff_id, allocation_date := now,
                     return_date := none,
                     status := AssignmentStatus.assigned }] = 0 := by
                have : (iid2 == iid) = false := by simpa using Ne.symm hii
                simp [List.countP_cons, activeAssignment, this]
              rw [hzero]
              push_cast
              ring
          · simp only [findItem]
            exact find?_updateFirstBy_isSome (fun x => rfl)

theorem consv_manual_assignment (db : DB) (iid2 sid now iid : Nat) :
    itemQty (manual_assignment db iid2 sid now).1 iid +
        (activeCount (manual_assignment db iid2 sid now).1 iid : Int) =
      itemQty db iid + (activeCount db iid : Int) ∧
    (findItem (manual_assignment db iid2 sid now).1 iid).isSome =
      (findItem db iid).isSome := by
  unfold manual_assignment
  split
  · exact ⟨rfl, rfl⟩
  · split
    · split
      · exact ⟨rfl, rfl⟩
      · rename_i item hitem hsid hqty
        unfold findItem at hitem
        constructor
        · simp only [itemQty, findItem, activeCount, List.countP_append]
          by_cases hii : iid = iid2
          · subst hii
            rw [findItem_updateFirstBy_self
              (f := fun it => { it with
                quantity_available := it.quantity_available - 1 })
              (fun it => rfl) hitem, hitem]
            have hone : List.countP (activeAssignment iid)
                [{ id := db.next_assignment_id, item_id := iid,
                   staff_id := sid, allocation_date := now,
                   return_date := none,
                   status := AssignmentStatus.assigned }] = 1 := by
              simp [List.countP_cons, activeAssignment]
            rw [hone]
            simp only [Option.map_some', Option.getD_some]
            push_cast
            ring
          · rw [findItem_updateFirstBy_other
              (f := fun it => { it with
                quantity_available := it.quantity_available - 1 })
              (fun it => rfl) hii]
            have hzero : List.countP (activeAssignment iid)
                [{ id := db.next_assignment_id, item_id := iid2,
                   staff_id := sid, allocation_date := now,
                   return_date := none,
                   status := AssignmentStatus.assigned }] = 0 := by
              have : (iid2 == iid) = false := by simpa using Ne.symm hii
              simp [List.countP_cons, activeAssignment, this]
            rw [hzero]
            push_cast
            ring
        · simp only [findItem]
          exact find?_updateFirstBy_isSome (fun x => rfl)
    · exact ⟨rfl, rfl⟩

theorem consv_request_return (db : DB) (aid sid iid : Nat) :
    itemQty (request_return db aid sid).1 iid +
        (activeCount (request_return db aid sid).1 iid : Int) =
      itemQty db iid + (activeCount db iid : Int) ∧
    (findItem (request_return db aid sid).1 iid).isSome =
      (findItem db iid).isSome := by
  unfold request_return
  split
  · exact ⟨rfl, rfl⟩
  · split
    · exact ⟨rfl, rfl⟩
    · split
      · exact ⟨rfl, rfl⟩
      · rename_i a hfind hvalid hnotrr
        constructor
        · simp only [itemQty, findItem, activeCount]
          have hcnt := countP_updateFirstBy
            (f := fun a2 => { a2 with
              status := AssignmentStatus.return_requested })
            hfind (activeAssignment iid)
          have hsame : activeAssignment iid
              ({ a with status := AssignmentStatus.return_requested }) =
              activeAssignment iid a := by
            have ha : a.status = AssignmentStatus.assigned := by
              rcases a with ⟨_, _, _, _, _, st⟩
              cases st <;> simp_all
            simp [activeAssignment, ha]
          rw [hsame] at hcnt
          have : List.countP (activeAssignment iid)
              (updateFirstBy (fun a2 => a2.id == aid && a2.staff_id == sid)
                (fun a2 => { a2 with
                  status := AssignmentStatus.return_requested })
                db.assignments) =
              List.countP (activeAssignment iid) db.assignments := by omega
          rw [this]
        · exact rfl

theorem consv_complete_return (db : DB) (aid now iid : Nat)
    (hm : (findItem db iid).isSome) :
    itemQty (complete_return db aid now).1 iid +
        (activeCount (complete_return db aid now).1 iid : Int) =
      itemQty db iid + (activeCount db iid : Int) ∧
    (findItem (complete_return db aid now).1 iid).isSome =
      (findItem db iid).isSome := by
  unfold complete_return
  split
  · exact ⟨rfl, rfl⟩
  · split
    · exact ⟨rfl, rfl⟩
    · rename_i a hfind hst
      unfold findAssignment at hfind
      have hrr : a.status = AssignmentStatus.return_requested := by
        by_contra hc
        exact hst hc
      have hcnt := countP_updateFirstBy
        (f := fun a2 => { a2 with status := AssignmentStatus.returned,
                                  return_date := some now })
        hfind (activeAssignment iid)
      split
      · rename_i hnone
        have hne : a.item_id ≠ iid := by
          intro he
          rw [he] at hnone
          rw [hnone] at hm
          simp at hm
        have hfa : activeAssignment iid a = false := by
          have : (a.item_id == iid) = false := by simpa using hne
          simp [activeAssignment, this]
        have hfa' : activeAssignment iid
            ({ a with status := AssignmentStatus.returned,
                      return_date := some now }) = false := by
          have : (a.item_id == iid) = false := by simpa using hne
          simp [activeAssignment, this]
        rw [hfa, hfa'] at hcnt
        constructor
        · simp only [itemQty, findItem, activeCount]
          have : List.countP (activeAssignment iid)
              (updateFirstBy (fun a2 => a2.id == aid)
                (fun a2 => { a2 with status := AssignmentStatus.returned,
                                     return_date := some now })
                db.assignments) =
              List.countP (activeAssignment iid) db.assignments := by omega
          rw [this]
        · exact rfl
      · rename_i it hit
        unfold findItem at hit
        constructor
        · simp only [itemQty, findItem, activeCount]
          by_cases hii : a.item_id = iid
          · rw [hii] at hit
            have hfa : activeAssignment iid a = true := by
              simp [activeAssignment, hii, hrr]
            have hfa' : activeAssignment iid
                ({ a with status := AssignmentStatus.returned,
                          return_date := some now }) = false := by
              simp [activeAssignment]
            rw [hfa, hfa'] at hcnt
            simp only [if_pos rfl] at hcnt
            norm_num at hcnt
            rw [hii]
            rw [findItem_updateFirstBy_self
              (f := fun it => { it with
                quantity_available := it.quantity_available + 1 })
              (fun x => rfl) hit, hit]
            simp only [Option.map_some', Option.getD_some]
            omega
          · have hfa : activeAssignment iid a = false := by
              have : (a.item_id == iid) = false := by simpa using hii
              simp [activeAssignment, this]
            have hfa' : activeAssignment iid
                ({ a with status := AssignmentStatus.returned,
                          return_date := some now }) = false := by
              have : (a.item_id == iid) = false := by simpa using hii
              simp [activeAssignment, this]
            rw [hfa, hfa'] at hcnt
            have hne : iid ≠ a.item_id := fun h => hii h.symm
            rw [findItem_updateFirstBy_other
              (f := fun it => { it with
                quantity_available := it.quantity_available + 1 })
              (fun x => rfl) hne]
            have : List.countP (activeAssignment iid)
                (updateFirstBy (fun a2 => a2.id == aid)
                  (fun a2 => { a2 with status := AssignmentStatus.returned,
                                       return_date := some now })
                  db.assignments) =
                List.countP (activeAssignment iid) db.assignments := by omega
            rw [this]
        · simp only [findItem]
          exact find?_updateFirstBy_isSome (fun x => rfl)

theorem consv_applyOp (db : DB) (op : Op) (iid : Nat)
    (hm : (findItem db iid).isSome) :
    itemQty (applyOp db op) iid + (activeCount (applyOp db op) iid : Int) =
      itemQty db iid + (activeCount db iid : Int) ∧
    (findItem (applyOp db op) iid).isSome := by
  cases op with
  | submitRequest sid iname justif =>
    obtain ⟨h1, h2⟩ := consv_submit_request db sid iname justif iid
    exact ⟨h1, h2.trans hm⟩
  | approveRequest rid iid2 now =>
    obtain ⟨h1, h2⟩ := consv_approve_request db rid iid2 now iid
    exact ⟨h1, h2.trans hm⟩
  | rejectRequest rid =>
    obtain ⟨h1, h2⟩ := consv_reject_request db rid iid
    exact ⟨h1, h2.trans hm⟩
  | manualAssign iid2 sid now =>
    obtain ⟨h1, h2⟩ := consv_manual_assignment db iid2 sid now iid
    exact ⟨h1, h2.trans hm⟩
  | requestReturn aid sid =>
    obtain ⟨h1, h2⟩ := consv_request_return db aid sid iid
    exact ⟨h1, h2.trans hm⟩
  | completeReturn aid now =>
    obtain ⟨h1, h2⟩ := consv_complete_return db aid now iid hm
    exact ⟨h1, h2.trans hm⟩

theorem consv_runOps (db : DB) (ops : List Op) (iid : Nat)
    (hm : (findItem db iid).isSome) :
    (itemQty (runOps db ops) iid + (activeCount (runOps db ops) iid : Int) =
      itemQty db iid + (activeCount db iid : Int)) ∧
    (findItem (runOps db ops) iid).isSome := by
  induction ops generalizing db with
  | nil => exact ⟨rfl, hm⟩
  | cons op rest ih =>
    obtain ⟨h1, h2⟩ := consv_applyOp db op iid hm
    obtain ⟨h3, h4⟩ := ih (applyOp db op) h2
    exact ⟨h3.trans h1, h4⟩

/-- C2: from an initial state with no assignments, after any sequence of the
six core operations, an item's initial quantity equals its current quantity
plus the number of assignments referencing it whose status is `assigned` or
`return_requested`.  Each allocation pairs a decrement with one new active
assignment, and each completed return pairs an increment with one assignment
leaving the active statuses. -/
theorem conservation_of_quantity (db : DB) (ops : List Op) (iid : Nat)
    (h0 : db.assignments = []) (hm : (findItem db iid).isSome) :
    itemQty db iid =
      itemQty (runOps db ops) iid +
        (activeCount (runOps db ops) iid : Int) := by
  obtain ⟨h1, _⟩ := consv_runOps db ops iid hm
  have hz : activeCount db iid = 0 := by
    rw [activeCount, h0]
    rfl
  rw [hz] at h1
  push_cast at h1
  omega

/-- Initial store for the C2 witness: two items, two pending requests, no
assignments. -/
def c2DB : DB where
  items := [{ id := 1, name := "Laptop", category := "Computing",
              quantity_available := 3 },
            { id := 2, name := "Monitor", category := "Display",
              quantity_available := 1 }]
  requests := [{ id := 1, staff_id := 7, item_name := "Laptop",
                 justification := "field work", status := RequestStatus.pending },
               { id := 2, staff_id := 8, item_name := "Laptop",
                 justification := "new hire", status := RequestStatus.pending }]
  assignments := []
  staff_ids := [7, 8]
  next_request_id := 3
  next_assignment_id := 1

/-- Operation sequence for the C2 witness: two approvals of item 1, a manual
assignment of item 2, one full return cycle. -/
def c2Ops : List Op :=
  [Op.approveRequest 1 1 0,
   Op.approveRequest 2 1 1,
   Op.manualAssign 2 7 2,
   Op.requestReturn 1 7,
   Op.completeReturn 1 3]

theorem conservation_of_quantity_witness :
    itemQty c2DB 1 =
      itemQty (runOps c2DB c2Ops) 1 +
        (activeCount (runOps c2DB c2Ops) 1 : Int) :=
  conservation_of_quantity c2DB c2Ops 1 (by decide) (by decide)

theorem findRequest_updateFirstBy_self {l : List ItemRequest} {rid : Nat}
    {req : ItemRequest} {f : ItemRequest → ItemRequest}
    (hf : ∀ r, (f r).id = r.id)
    (h : l.find? (fun r => r.id == rid) = some req) :
    (updateFirstBy (fun r => r.id == rid) f l).find?
      (fun r => r.id == rid) = some (f req) := by
  apply find?_updateFirstBy_self h
  rw [hf req]
  have hp := List.find?_some h
  exact hp

/-- C3: approving a pending request against an item with positive quantity
succeeds, decrements that item's quantity by exactly 1, appends exactly one
new `assigned` assignment carrying the chosen item and the request's staff
member, and marks the request `approved`. -/
theorem approve_request_effect (db : DB) (rid iid now : Nat)
    (req : ItemRequest) (item : InventoryItem)
    (hreq : findRequest db rid = some req)
    (hpend : req.status = RequestStatus.pending)
    (hitem : findItem db iid = some item)
    (hqty : 0 < item.quantity_available) :
    (approve_request db rid iid now).2 = Outcome.success ∧
    itemQty (approve_request db rid iid now).1 iid =
      item.quantity_available - 1 ∧
    (approve_request db rid iid now).1.assignments =
      db.assignments ++
        [{ id := db.next_assignment_id, item_id := iid,
           staff_id := req.staff_id, allocation_date := now,
           return_date := none, status := AssignmentStatus.assigned }] ∧
    findRequest (approve_request db rid iid now).1 rid =
      some { req with status := RequestStatus.approved } := by
  have hq' : ¬ item.quantity_available ≤ 0 := by omega
  refine ⟨?_, ?_, ?_, ?_⟩
  · simp [approve_request, hreq, hpend, hitem, hq']
  · simp only [approve_request, hreq, hpend, hitem]
    rw [if_neg (by simp), if_neg hq']
    simp only [itemQty, findItem]
    unfold findItem at hitem
    rw [findItem_updateFirstBy_self
      (f := fun it => { it with
        quantity_available := it.quantity_available - 1 })
      (fun it => rfl) hitem]
    rfl
  · simp [approve_request, hreq, hpend, hitem, hq']
  · simp only [approve_request, hreq, hpend, hitem]
    rw [if_neg (by simp), if_neg hq']
    simp only [findRequest]
    unfold findRequest at hreq
    rw [findRequest_updateFirstBy_self
      (f := fun r => { r with status := RequestStatus.approved })
      (fun r => rfl) hreq]

/-- Store for the C3 witness: one item with three units and one pending
request. -/
def c3DB : DB where
  items := [{ id := 1, name := "Projector", category := "AV",
              quantity_available := 3 }]
  requests := [{ id := 1, staff_id := 9, item_name := "Projector",
                 justification := "seminar", status := RequestStatus.pending }]
  assignments := []
  staff_ids := [9]
  next_request_id := 2
  next_assignment_id := 1

theorem approve_request_effect_witness :
    (approve_request c3DB 1 1 5).2 = Outcome.success ∧
    itemQty (approve_request c3DB 1 1 5).1 1 = 3 - 1 ∧
    (approve_request c3DB 1 1 5).1.assignments =
      c3DB.assignments ++
        [{ id := c3DB.next_assignment_id, item_id := 1, staff_id := 9,
           allocation_date := 5, return_date := none,
           status := AssignmentStatus.assigned }] ∧
    findRequest (approve_request c3DB 1 1 5).1 1 =
      some { id := 1, staff_id := 9, item_name := "Projector",
             justification := "seminar", status := RequestStatus.approved } :=
  approve_request_effect c3DB 1 1 5
    { id := 1, staff_id := 9, item_name := "Projector",
      justification := "seminar", status := RequestStatus.pending }
    { id := 1, name := "Projector", category := "AV",
      quantity_available := 3 }
    (by decide) (by decide) (by decide) (by decide)

/-- C4: a request that is no longer `pending` is immutable — both
`approve_request` and `reject_request` abort with the already-processed
message and leave the entire store unchanged (no assignment created, no
quantity changed, request status untouched). -/
theorem processed_request_immutable (db : DB) (rid iid now : Nat)
    (req : ItemRequest) (hreq : findRequest db rid = some req)
    (hnp : req.status ≠ RequestStatus.pending) :
    approve_request db rid iid now = (db, Outcome.alreadyProcessed) ∧
    reject_request db rid = (db, Outcome.alreadyProcessed) := by
  constructor
  · simp [approve_request, hreq, hnp]
  · simp [reject_request, hreq, hnp]

/-- Store for the C4 witness: request 1 is already `approved`. -/
def c4DB : DB where
  items := [{ id := 1, name := "Scanner", category := "Office",
              quantity_available := 5 }]
  requests := [{ id := 1, staff_id := 4, item_name := "Scanner",
                 justification := "records", status := RequestStatus.approved }]
  assignments := []
  staff_ids := [4]
  next_request_id := 2
  next_assignment_id := 1

theorem processed_request_immutable_witness :
    approve_request c4DB 1 1 0 = (c4DB, Outcome.alreadyProcessed) ∧
    reject_request c4DB 1 = (c4DB, Outcome.alreadyProcessed) :=
  processed_request_immutable c4DB 1 1 0
    { id := 1, staff_id := 4, item_name := "Scanner",
      justification := "records", status := RequestStatus.approved }
    (by decide) (by decide)

/-- C5: approving a pending request (or manually assigning) against an item
with `quantity_available <= 0` aborts with the unavailable message and
mutates nothing: the store is returned unchanged, so the request stays
`pending` and no assignment is created. -/
theorem item_unavailable_no_mutation (db : DB) (rid iid sid now : Nat)
    (req : ItemRequest) (item : InventoryItem)
    (hreq : findRequest db rid = some req)
    (hpend : req.status = RequestStatus.pending)
    (hitem : findItem db iid = some item)
    (hqty : item.quantity_available ≤ 0)
    (hsid : sid ∈ db.staff_ids) :
    approve_request db rid iid now = (db, Outcome.itemUnavailable) ∧
    manual_assignment db iid sid now = (db, Outcome.itemUnavailable) := by
  constructor
  · simp [approve_request, hreq, hpend, hitem, hqty]
  · simp [manual_assignment, hitem, hsid, hqty]

/-- Store for the C5 witness scenario: one item with two units and three
pending requests. -/
def c5DB : DB where
  items := [{ id := 1, name := "Laptop", category := "Computing",
              quantity_available := 2 }]
  requests := [{ id := 1, staff_id := 7, item_name := "Laptop",
                 justification := "j1", status := RequestStatus.pending },
               { id := 2, staff_id := 7, item_name := "Laptop",
                 justification := "j2", status := RequestStatus.pending },
               { id := 3, staff_id := 7, item_name := "Laptop",
                 justification := "j3", status := RequestStatus.pending }]
  assignments := []
  staff_ids := [7]
  next_request_id := 4
  next_assignment_id := 1

/-- State after the first two approvals of the C5 scenario. -/
def c5DB2 : DB := (approve_request (approve_request c5DB 1 1 0).1 2 1 1).1

theorem item_unavailable_no_mutation_witness :
    (approve_request c5DB 1 1 0).2 = Outcome.success ∧
    (approve_request (approve_request c5DB 1 1 0).1 2 1 1).2 =
      Outcome.success ∧
    itemQty c5DB2 1 = 0 ∧
    findRequest c5DB2 3 =
      some { id := 3, staff_id := 7, item_name := "Laptop",
             justification := "j3", status := RequestStatus.pending } ∧
    approve_request c5DB2 3 1 2 = (c5DB2, Outcome.itemUnavailable) ∧
    manual_assignment c5DB2 1 7 2 = (c5DB2, Outcome.itemUnavailable) := by
  have h := item_unavailable_no_mutation c5DB2 3 1 7 2
    { id := 3, staff_id := 7, item_name := "Laptop",
      justification := "j3", status := RequestStatus.pending }
    { id := 1, name := "Laptop", category := "Computing",
      quantity_available := 0 }
    (by decide) (by decide) (by decide) (by decide) (by decide)
  exact ⟨by decide, by decide, by decide, by decide, h.1, h.2⟩

theorem updateFirstBy_congr_found {α : Type} {p : α → Bool} {f g : α → α}
    {l : List α} {y : α} (hf : l.find? p = some y) (hfg : f y = g y) :
    updateFirstBy p f l = updateFirstBy p g l := by
  induction l with
  | nil => rfl
  | cons z zs ih =>
    by_cases hz : p z
    · rw [List.find?_cons_of_pos zs hz] at hf
      injection hf with hf
      subst hf
      simp only [updateFirstBy, if_pos hz, hfg]
    · rw [List.find?_cons_of_neg zs hz] at hf
      simp only [updateFirstBy, if_neg hz, ih hf]

/-- Fine-grained model of the `approve_request` handler body for the
concurrency analysis.  In the handler the ORM loads the item row during the
request cycle and `item.quantity_available -= 1` mutates that loaded object,
so both the availability guard and the value written back at
`db.session.commit()` use the quantity as it was read (`readQty`), not the
committed row value — there is no conditional-decrement statement or row
lock in the source.  `approve_request_interleaved db rid iid readQty now` is
the commit of one such handler invocation whose read phase observed
`readQty`. -/
def approve_request_interleaved (db : DB) (rid iid : Nat) (readQty : Int)
    (now : Nat) : DB × Outcome :=
  match findRequest db rid with
  | none => (db, Outcome.notFound)
  | some req =>
    if req.status ≠ RequestStatus.pending then (db, Outcome.alreadyProcessed)
    else
      match findItem db iid with
      | none => (db, Outcome.notFound)
      | some _ =>
        if readQty ≤ 0 then (db, Outcome.itemUnavailable)
        else
          ({ db with
              items := updateFirstBy (fun it => it.id == iid)
                (fun it => { it with quantity_available := readQty - 1 })
                db.items,
              requests := updateFirstBy (fun r => r.id == rid)
                (fun r => { r with status := RequestStatus.approved })
                db.requests,
              assignments := db.assignments ++
                [{ id := db.next_assignment_id, item_id := iid,
                   staff_id := req.staff_id, allocation_date := now,
                   return_date := none,
                   status := AssignmentStatus.assigned }],
              next_assignment_id := db.next_assignment_id + 1 },
           Outcome.success)

/-- When the read phase observes the committed quantity (no interleaving),
the fine-grained model coincides with the embedded handler. -/
theorem approve_request_interleaved_serial (db : DB) (rid iid now : Nat)
    (item : InventoryItem) (hitem : findItem db iid = some item) :
    approve_request_interleaved db rid iid item.quantity_available now =
      approve_request db rid iid now := by
  unfold approve_request_interleaved approve_request
  cases hr : findRequest db rid with
  | none => rfl
  | some req =>
    simp only
    split
    · rfl
    · rw [hitem]
      simp only
      split
      · rfl
      · have hupd : updateFirstBy (fun it => it.id == iid)
            (fun it => { it with
              quantity_available := item.quantity_available - 1 })
            db.items =
          updateFirstBy (fun it => it.id == iid)
            (fun it => { it with
              quantity_available := it.quantity_available - 1 })
            db.items := by
          unfold findItem at hitem
          exact updateFirstBy_congr_found hitem rfl
        rw [hupd]

/-- Store for the C6 exhaustion-race analysis: one unit of item 1, two
pending requests from different staff members. -/
def c6DB : DB where
  items := [{ id := 1, name := "Tablet", category := "Computing",
              quantity_available := 1 }]
  requests := [{ id := 1, staff_id := 7, item_name := "Tablet",
                 justification := "j1", status := RequestStatus.pending },
               { id := 2, staff_id := 8, item_name := "Tablet",
                 justification := "j2", status := RequestStatus.pending }]
  assignments := []
  staff_ids := [7, 8]
  next_request_id := 3
  next_assignment_id := 1

/-- C6: the claim requires that two concurrent approvals against an item
with one unit yield exactly one success and one unavailable signal.  The
handler's read-then-write allows the interleaving in which both invocations
read quantity 1 before either commits: both then pass the guard and both
succeed, leaving quantity 0 with two active assignments — two successes from
one unit, violating the claimed exactly-one-success guarantee (and
conservation).  Run serially the same two approvals do behave as claimed,
confirming that the failure is precisely the unguarded interleaving. -/
theorem exhaustion_race_two_successes :
    itemQty c6DB 1 = 1 ∧
    (approve_request c6DB 1 1 0).2 = Outcome.success ∧
    (approve_request (approve_request c6DB 1 1 0).1 2 1 1).2 =
      Outcome.itemUnavailable ∧
    (approve_request_interleaved c6DB 1 1 1 0).2 = Outcome.success ∧
    (approve_request_interleaved
      (approve_request_interleaved c6DB 1 1 1 0).1 2 1 1 1).2 =
      Outcome.success ∧
    itemQty
      (approve_request_interleaved
        (approve_request_interleaved c6DB 1 1 1 0).1 2 1 1 1).1 1 = 0 ∧
    activeCount
      (approve_request_interleaved
        (approve_request_interleaved c6DB 1 1 1 0).1 2 1 1 1).1 1 = 2 := by
  refine ⟨?_, ?_, ?_, ?_, ?_, ?_, ?_⟩ <;> decide

/-- C7: completing a return on a `return_requested` assignment succeeds,
marks the assignment `returned` with its `return_date` stamped, and
increments the referenced item's quantity by exactly 1; when the referenced
item row no longer exists the increment is skipped as a no-op (the items
table is untouched) and the operation still succeeds. -/
theorem complete_return_effect (db : DB) (aid now : Nat)
    (a : ItemAssignment)
    (hfind : findAssignment db aid = some a)
    (hst : a.status = AssignmentStatus.return_requested) :
    (complete_return db aid now).2 = Outcome.success ∧
    findAssignment (complete_return db aid now).1 aid =
      some { a with status := AssignmentStatus.returned,
                    return_date := some now } ∧
    (∀ it, findItem db a.item_id = some it →
      itemQty (complete_return db aid now).1 a.item_id =
        it.quantity_available + 1) ∧
    (findItem db a.item_id = none →
      (complete_return db aid now).1.items = db.items) := by
  have hne : ¬ a.status ≠ AssignmentStatus.return_requested := by simp [hst]
  refine ⟨?_, ?_, ?_, ?_⟩
  · simp only [complete_return, hfind, if_neg hne]
    cases findItem db a.item_id <;> rfl
  · simp only [complete_return, hfind, if_neg hne]
    have hfa : (updateFirstBy (fun a2 => a2.id == aid)
        (fun a2 => { a2 with status := AssignmentStatus.returned,
                             return_date := some now })
        db.assignments).find? (fun a2 => a2.id == aid) =
        some { a with status := AssignmentStatus.returned,
                      return_date := some now } := by
      unfold findAssignment at hfind
      apply find?_updateFirstBy_self hfind
      have hp := List.find?_some hfind
      exact hp
    cases findItem db a.item_id with
    | none =>
      simp only [findAssignment]
      exact hfa
    | some it =>
      simp only [findAssignment]
      exact hfa
  · intro it hit
    simp only [complete_return, hfind, if_neg hne, hit]
    simp only [itemQty, findItem]
    unfold findItem at hit
    rw [findItem_updateFirstBy_self
      (f := fun x => { x with
        quantity_available := x.quantity_available + 1 })
      (fun x => rfl) hit]
    rfl
  · intro hnone
    simp only [complete_return, hfind, if_neg hne, hnone]

/-- Store for the C7 witness: assignment 1 over the existing item 1 and
assignment 2 referencing a deleted item (id 99) are both awaiting return
completion. -/
def c7DB : DB where
  items := [{ id := 1, name := "Camera", category := "AV",
              quantity_available := 4 }]
  requests := []
  assignments := [{ id := 1, item_id := 1, staff_id := 7,
                    allocation_date := 0, return_date := none,
                    status := AssignmentStatus.return_requested },
                  { id := 2, item_id := 99, staff_id := 8,
                    allocation_date := 0, return_date := none,
                    status := AssignmentStatus.return_requested }]
  staff_ids := [7, 8]
  next_request_id := 1
  next_assignment_id := 3

theorem complete_return_effect_witness :
    ((complete_return c7DB 1 6).2 = Outcome.success ∧
      findAssignment (complete_return c7DB 1 6).1 1 =
        some { id := 1, item_id := 1, staff_id := 7, allocation_date := 0,
               return_date := some 6,
               status := AssignmentStatus.returned } ∧
      itemQty (complete_return c7DB 1 6).1 1 = 4 + 1) ∧
    ((complete_return c7DB 2 6).2 = Outcome.success ∧
      (complete_return c7DB 2 6).1.items = c7DB.items) := by
  have h1 := complete_return_effect c7DB 1 6
    { id := 1, item_id := 1, staff_id := 7, allocation_date := 0,
      return_date := none, status := AssignmentStatus.return_requested }
    (by decide) (by decide)
  have h2 := complete_return_effect c7DB 2 6
    { id := 2, item_id := 99, staff_id := 8, allocation_date := 0,
      return_date := none, status := AssignmentStatus.return_requested }
    (by decide) (by decide)
  refine ⟨⟨h1.1, h1.2.1, ?_⟩, ⟨h2.1, ?_⟩⟩
  · exact h1.2.2.1
      { id := 1, name := "Camera", category := "AV",
        quantity_available := 4 } (by decide)
  · exact h2.2.2.2 (by decide)

/-- C8: for an assignment owned by the calling staff member, requesting a
return while it is `assigned` succeeds and moves it to `return_requested`;
requesting again while it is already `return_requested` reports "already
requested" as a non-error and changes nothing at all. -/
theorem request_return_idempotent (db : DB) (aid sid : Nat)
    (a : ItemAssignment)
    (hfind : db.assignments.find?
      (fun x => x.id == aid && x.staff_id == sid) = some a)
    (hst : a.status = AssignmentStatus.assigned) :
    (request_return db aid sid).2 = Outcome.success ∧
    (request_return db aid sid).1.assignments.find?
        (fun x => x.id == aid && x.staff_id == sid) =
      some { a with status := AssignmentStatus.return_requested } ∧
    request_return (request_return db aid sid).1 aid sid =
      ((request_return db aid sid).1, Outcome.alreadyRequested) := by
  have hcond : ¬ (a.status ≠ AssignmentStatus.assigned ∧
      a.status ≠ AssignmentStatus.return_requested) := by
    simp [hst]
  have hnotrr : ¬ a.status = AssignmentStatus.return_requested := by
    simp [hst]
  have hfind1 : (request_return db aid sid).1.assignments.find?
      (fun x => x.id == aid && x.staff_id == sid) =
      some { a with status := AssignmentStatus.return_requested } := by
    simp only [request_return, hfind, if_neg hcond, if_neg hnotrr]
    apply find?_updateFirstBy_self hfind
    have hp := List.find?_some hfind
    exact hp
  refine ⟨?_, hfind1, ?_⟩
  · simp [request_return, hfind, hcond, hnotrr, hst]
  · set db1 := (request_return db aid sid).1 with hdb1
    unfold request_return
    rw [hfind1]
    simp

/-- Store for the C8 witness: staff member 7 holds assignment 1 in the
`assigned` state. -/
def c8DB : DB where
  items := [{ id := 1, name := "Headset", category := "AV",
              quantity_available := 0 }]
  requests := []
  assignments := [{ id := 1, item_id := 1, staff_id := 7,
                    allocation_date := 0, return_date := none,
                    status := AssignmentStatus.assigned }]
  staff_ids := [7]
  next_request_id := 1
  next_assignment_id := 2

theorem request_return_idempotent_witness :
    (request_return c8DB 1 7).2 = Outcome.success ∧
    (request_return c8DB 1 7).1.assignments.find?
        (fun x => x.id == 1 && x.staff_id == 7) =
      some { id := 1, item_id := 1, staff_id := 7, allocation_date := 0,
             return_date := none,
             status := AssignmentStatus.return_requested } ∧
    request_return (request_return c8DB 1 7).1 1 7 =
      ((request_return c8DB 1 7).1, Outcome.alreadyRequested) :=
  request_return_idempotent c8DB 1 7
    { id := 1, item_id := 1, staff_id := 7, allocation_date := 0,
      return_date := none, status := AssignmentStatus.assigned }
    (by decide) (by decide)

theorem request_return_assigned_state (db : DB) (aid sid : Nat)
    (a : ItemAssignment)
    (hfind : db.assignments.find?
      (fun x => x.id == aid && x.staff_id == sid) = some a)
    (hst : a.status = AssignmentStatus.assigned) :
    (request_return db aid sid).1 =
      { db with
          assignments := updateFirstBy
            (fun x => x.id == aid && x.staff_id == sid)
            (fun x => { x with status := AssignmentStatus.return_requested })
            db.assignments } := by
  simp [request_return, hfind, hst]

theorem complete_return_found_state (db : DB) (aid now : Nat)
    (a : ItemAssignment) (it : InventoryItem)
    (hfind : findAssignment db aid = some a)
    (hst : a.status = AssignmentStatus.return_requested)
    (hit : findItem db a.item_id = some it) :
    (complete_return db aid now).1 =
      { db with
          items := updateFirstBy (fun x => x.id == a.item_id)
            (fun x => { x with
              quantity_available := x.quantity_available + 1 }) db.items,
          assignments := updateFirstBy (fun x => x.id == aid)
            (fun x => { x with status := AssignmentStatus.returned,
                                return_date := some now })
            db.assignments } := by
  have hne : ¬ a.status ≠ AssignmentStatus.return_requested := by simp [hst]
  simp only [complete_return, hfind, if_neg hne, hit]

/-- C9: approving a pending request and then running the full return cycle
on the assignment it created (`request_return` by the owning staff member,
then `complete_return`) restores the item's quantity to exactly its value
before the approval.  The freshness hypothesis states that the
autoincremented assignment id is not already taken, which the primary key
guarantees in the store. -/
theorem approve_return_round_trip (db : DB) (rid iid now now2 : Nat)
    (req : ItemRequest) (item : InventoryItem)
    (hreq : findRequest db rid = some req)
    (hpend : req.status = RequestStatus.pending)
    (hitem : findItem db iid = some item)
    (hqty : 0 < item.quantity_available)
    (hfresh : ∀ x ∈ db.assignments, x.id ≠ db.next_assignment_id) :
    itemQty
      (complete_return
        (request_return (approve_request db rid iid now).1
          db.next_assignment_id req.staff_id).1
        db.next_assignment_id now2).1 iid = itemQty db iid := by
  have hq' : ¬ item.quantity_available ≤ 0 := by omega
  have hdb1 : (approve_request db rid iid now).1 =
      { db with
          items := updateFirstBy (fun it => it.id == iid)
            (fun it => { it with
              quantity_available := it.quantity_available - 1 }) db.items,
          requests := updateFirstBy (fun r => r.id == rid)
            (fun r => { r with status := RequestStatus.approved }) db.requests,
          assignments := db.assignments ++
            [{ id := db.next_assignment_id, item_id := iid,
               staff_id := req.staff_id, allocation_date := now,
               return_date := none, status := AssignmentStatus.assigned }],
          next_assignment_id := db.next_assignment_id + 1 } := by
    simp [approve_request, hreq, hpend, hitem, hq']
  have hnone2 : db.assignments.find?
      (fun x => x.id == db.next_assignment_id &&
        x.staff_id == req.staff_id) = none := by
    rw [List.find?_eq_none]
    intro x hx
    have := hfresh x hx
    simp [this]
  have hfind2 : (db.assignments ++
      [({ id := db.next_assignment_id, item_id := iid,
          staff_id := req.staff_id, allocation_date := now,
          return_date := none,
          status := AssignmentStatus.assigned } : ItemAssignment)]).find?
      (fun x => x.id == db.next_assignment_id &&
        x.staff_id == req.staff_id) =
      some ({ id := db.next_assignment_id, item_id := iid,
              staff_id := req.staff_id, allocation_date := now,
              return_date := none,
              status := AssignmentStatus.assigned } : ItemAssignment) := by
    rw [find?_append_none hnone2]
    simp
  have hdb2 : (request_return (approve_request db rid iid now).1
      db.next_assignment_id req.staff_id).1 =
      { db with
          items := updateFirstBy (fun it => it.id == iid)
            (fun it => { it with
              quantity_available := it.quantity_available - 1 }) db.items,
          requests := updateFirstBy (fun r => r.id == rid)
            (fun r => { r with status := RequestStatus.approved }) db.requests,
          assignments := db.assignments ++
            [{ id := db.next_assignment_id, item_id := iid,
               staff_id := req.staff_id, allocation_date := now,
               return_date := none,
               status := AssignmentStatus.return_requested }],
          next_assignment_id := db.next_assignment_id + 1 } := by
    rw [hdb1, request_return_assigned_state _ db.next_assignment_id
      req.staff_id _ hfind2 rfl]
    simp [updateFirstBy_append_none hnone2, updateFirstBy]
  have hnone3 : db.assignments.find?
      (fun x => x.id == db.next_assignment_id) = none := by
    rw [List.find?_eq_none]
    intro x hx
    have := hfresh x hx
    simp [this]
  have hfind3 : (db.assignments ++
      [({ id := db.next_assignment_id, item_id := iid,
          staff_id := req.staff_id, allocation_date := now,
          return_date := none,
          status := AssignmentStatus.return_requested } :
        ItemAssignment)]).find?
      (fun x => x.id == db.next_assignment_id) =
      some ({ id := db.next_assignment_id, item_id := iid,
              staff_id := req.staff_id, allocation_date := now,
              return_date := none,
              status := AssignmentStatus.return_requested } :
            ItemAssignment) := by
    rw [find?_append_none hnone3]
    simp
  have hitemDec : (updateFirstBy (fun it => it.id == iid)
      (fun it => { it with
        quantity_available := it.quantity_available - 1 })
      db.items).find? (fun it => it.id == iid) =
      some { item with
        quantity_available := item.quantity_available - 1 } := by
    unfold findItem at hitem
    exact findItem_updateFirstBy_self
      (f := fun it => { it with
        quantity_available := it.quantity_available - 1 })
      (fun it => rfl) hitem
  rw [hdb2]
  have hinc := findItem_updateFirstBy_self
    (f := fun x => { x with
      quantity_available := x.quantity_available + 1 })
    (fun x => rfl) hitemDec
  have hitem2 : db.items.find? (fun it => it.id == iid) = some item := hitem
  simp [complete_return, findAssignment, findItem, hfind3, hitemDec,
    itemQty, hinc, hitem2]

/-- Store for the C9 witness: one pending request and one item with two
units. -/
def c9DB : DB where
  items := [{ id := 1, name := "Drone", category := "AV",
              quantity_available := 2 }]
  requests := [{ id := 1, staff_id := 7, item_name := "Drone",
                 justification := "survey", status := RequestStatus.pending }]
  assignments := []
  staff_ids := [7]
  next_request_id := 2
  next_assignment_id := 1

theorem approve_return_round_trip_witness :
    itemQty
      (complete_return
        (request_return (approve_request c9DB 1 1 0).1
          c9DB.next_assignment_id 7).1
        c9DB.next_assignment_id 9).1 1 = itemQty c9DB 1 :=
  approve_return_round_trip c9DB 1 1 0 9
    { id := 1, staff_id := 7, item_name := "Drone",
      justification := "survey", status := RequestStatus.pending }
    { id := 1, name := "Drone", category := "AV", quantity_available := 2 }
    (by decide) (by decide) (by decide) (by decide) (by decide)

/-- C10: on an `assigned` assignment owned by the calling staff member,
`request_return` mutates only that assignment's status field (to
`return_requested`): items (hence every quantity), requests, staff, and the
id counters are untouched, the assignments table keeps its length (nothing
created), and every stored assignment is either exactly as before or is the
targeted one with only `status` changed — in particular its `return_date`
is preserved. -/
theorem request_return_frame (db : DB) (aid sid : Nat) (a : ItemAssignment)
    (hfind : db.assignments.find?
      (fun x => x.id == aid && x.staff_id == sid) = some a)
    (hst : a.status = AssignmentStatus.assigned) :
    (request_return db aid sid).1.items = db.items ∧
    (request_return db aid sid).1.requests = db.requests ∧
    (request_return db aid sid).1.staff_ids = db.staff_ids ∧
    (request_return db aid sid).1.next_request_id = db.next_request_id ∧
    (request_return db aid sid).1.next_assignment_id =
      db.next_assignment_id ∧
    (request_return db aid sid).1.assignments.length =
      db.assignments.length ∧
    ∀ i : Nat,
      (request_return db aid sid).1.assignments.get? i =
        db.assignments.get? i ∨
      (db.assignments.get? i = some a ∧
        (request_return db aid sid).1.assignments.get? i =
          some { a with status := AssignmentStatus.return_requested }) := by
  have hstate := request_return_assigned_state db aid sid a hfind hst
  rw [hstate]
  refine ⟨rfl, rfl, rfl, rfl, rfl, length_updateFirstBy _, ?_⟩
  intro i
  rcases get?_updateFirstBy
      (p := fun x => x.id == aid && x.staff_id == sid)
      (f := fun x => { x with status := AssignmentStatus.return_requested })
      db.assignments i with h | ⟨y, hy, h1, h2⟩
  · exact Or.inl h
  · rw [hfind] at hy
    have hya : y = a := (Option.some.inj hy).symm
    subst hya
    exact Or.inr ⟨h1, h2⟩

/-- Store for the C10 witness: staff member 5 holds assignment 2 in the
`assigned` state, next to an unrelated returned assignment. -/
def c10DB : DB where
  items := [{ id := 1, name := "Keyboard", category := "Computing",
              quantity_available := 6 }]
  requests := [{ id := 1, staff_id := 5, item_name := "Keyboard",
                 justification := "desk", status := RequestStatus.approved }]
  assignments := [{ id := 1, item_id := 1, staff_id := 5,
                    allocation_date := 0, return_date := some 2,
                    status := AssignmentStatus.returned },
                  { id := 2, item_id := 1, staff_id := 5,
                    allocation_date := 3, return_date := none,
                    status := AssignmentStatus.assigned }]
  staff_ids := [5]
  next_request_id := 2
  next_assignment_id := 3

theorem request_return_frame_witness :
    (request_return c10DB 2 5).1.items = c10DB.items ∧
    (request_return c10DB 2 5).1.requests = c10DB.requests ∧
    (request_return c10DB 2 5).1.staff_ids = c10DB.staff_ids ∧
    (request_return c10DB 2 5).1.next_request_id = c10DB.next_request_id ∧
    (request_return c10DB 2 5).1.next_assignment_id =
      c10DB.next_assignment_id ∧
    (request_return c10DB 2 5).1.assignments.length =
      c10DB.assignments.length ∧
    ∀ i : Nat,
      (request_return c10DB 2 5).1.assignments.get? i =
        c10DB.assignments.get? i ∨
      (c10DB.assignments.get? i =
        some { id := 2, item_id := 1, staff_id := 5, allocation_date := 3,
               return_date := none,
               status := AssignmentStatus.assigned } ∧
        (request_return c10DB 2 5).1.assignments.get? i =
          some { id := 2, item_id := 1, staff_id := 5, allocation_date := 3,
                 return_date := none,
                 status := AssignmentStatus.return_requested }) :=
  request_return_frame c10DB 2 5
    { id := 2, item_id := 1, staff_id := 5, allocation_date := 3,
      return_date := none, status := AssignmentStatus.assigned }
    (by decide) (by decide)

end ElectronicsInventory
